import Mathlib

/-!
Shallow embedding of the core of FXPUtil.py: the signature store
(signatures.json CRUD), the 20-byte preset header codec, the plugin
resolver, and the byte comparator.

Modelling conventions:
* Python strings are sequences of Unicode code points (PyStr below);
  bytes objects are lists of Nat below 256.
* Operations that can raise an uncaught Python exception return
  Except Unit; the error value stands for the propagated exception.
* OS-level read and write failures, which every function of the source
  catches with a bare except and turns into None or False, are modelled
  by the readOk and writeOk flags of the file abstractions.
* String helpers (lower, strip) are modelled on their ASCII fragment,
  where the Python originals agree with them; the inputs appearing in
  the source (extensions, the magic, whitespace) are ASCII.
-/

/-- Python strings as sequences of Unicode code points. -/
abbrev PyStr := List Nat

/-- Build a PyStr from a Lean string literal (its code points). -/
def pyStr (s : String) : PyStr := s.data.map Char.toNat

/-- ASCII fragment of the Python method str.lower. -/
def pyLower (s : PyStr) : PyStr := s.map (fun n => if 65 ≤ n ∧ n ≤ 90 then n + 32 else n)

/-- Whitespace code points removed by the Python method str.strip (ASCII fragment). -/
def isPySpace (n : Nat) : Bool := n == 32 || n == 9 || n == 10 || n == 11 || n == 12 || n == 13

/-- The Python method str.strip: drop leading and trailing whitespace. -/
def pyStrip (s : PyStr) : PyStr := ((s.dropWhile isPySpace).reverse.dropWhile isPySpace).reverse

/-- UTF-8 encoding of one code point (as Python str.encode does per character). -/
def utf8Bytes (n : Nat) : List Nat :=
  if n < 128 then [n]
  else if n < 2048 then [192 + n / 64, 128 + n % 64]
  else if n < 65536 then [224 + n / 4096, 128 + n / 64 % 64, 128 + n % 64]
  else [240 + n / 262144, 128 + n / 4096 % 64, 128 + n / 64 % 64, 128 + n % 64]

/-- UTF-8 encoding of a string: Python str.encode with codec utf-8. -/
def utf8Encode (s : PyStr) : List Nat := (s.map utf8Bytes).flatten

/-- A UTF-8 continuation byte: 128..191. -/
def utf8Cont (b : Nat) : Bool := 128 ≤ b && b ≤ 191

/-- Decode one strict UTF-8 sequence from the front of a byte list: the
code point and the remaining bytes.  Rejects invalid leading bytes,
truncated sequences, overlong forms, surrogates and values above
0x10FFFF, exactly as the strict utf-8 codec of Python does. -/
def utf8DecodeOne : List Nat → Option (Nat × List Nat)
  | [] => none
  | b :: rest =>
    if b < 128 then some (b, rest)
    else if b < 194 then none
    else if b ≤ 223 then
      match rest with
      | b2 :: rest2 =>
        if utf8Cont b2 then some ((b - 192) * 64 + (b2 - 128), rest2) else none
      | [] => none
    else if b ≤ 239 then
      match rest with
      | b2 :: b3 :: rest3 =>
        if (if b = 224 then 160 ≤ b2 && b2 ≤ 191
            else if b = 237 then 128 ≤ b2 && b2 ≤ 159
            else utf8Cont b2) && utf8Cont b3 then
          some ((b - 224) * 4096 + (b2 - 128) * 64 + (b3 - 128), rest3)
        else none
      | _ => none
    else if b ≤ 244 then
      match rest with
      | b2 :: b3 :: b4 :: rest4 =>
        if (if b = 240 then 144 ≤ b2 && b2 ≤ 191
            else if b = 244 then 128 ≤ b2 && b2 ≤ 143
            else utf8Cont b2) && utf8Cont b3 && utf8Cont b4 then
          some ((b - 240) * 262144 + (b2 - 128) * 4096 + (b3 - 128) * 64 + (b4 - 128), rest4)
        else none
      | _ => none
    else none

/-- Decode a whole byte list, sequence by sequence; fuel bounds the number
of sequences, and each sequence consumes at least one byte, so fuel equal
to the length of the list always suffices. -/
def utf8DecodeLoop : Nat → List Nat → Option PyStr
  | _, [] => some []
  | 0, _ :: _ => none
  | fuel + 1, b :: rest =>
    match utf8DecodeOne (b :: rest) with
    | none => none
    | some (cp, rem) => (utf8DecodeLoop fuel rem).map (fun t => cp :: t)

/-- Strict UTF-8 decoding, Python bytes.decode with codec utf-8; none
models a raised UnicodeDecodeError. -/
def utf8Decode (l : List Nat) : Option PyStr := utf8DecodeLoop l.length l

/-- pat is a leading segment of s. -/
def leadsWith : List Nat → List Nat → Bool
  | [], _ => true
  | _ :: _, [] => false
  | a :: as, b :: bs => a == b && leadsWith as bs

/-- pat is a trailing segment of s (Python str.endswith). -/
def trailsWith (pat s : List Nat) : Bool := leadsWith pat.reverse s.reverse

/-- pat occurs as a contiguous run inside s (the Python operator in, on bytes). -/
def occursIn : List Nat → List Nat → Bool
  | pat, [] => pat.isEmpty
  | pat, b :: t => leadsWith pat (b :: t) || occursIn pat t

/-- One record of signatures.json. -/
structure SigRecord where
  code : PyStr
  name : PyStr
  company : PyStr
deriving DecidableEq

/-- State of signatures.json: the file is missing (open raises
FileNotFoundError), present but not valid JSON (json.load raises
JSONDecodeError), or parsed as a list of records — the array-of-objects
shape the application itself writes and fetches. -/
inductive SigFileState where
  | missing
  | invalid
  | parsed (recs : List SigRecord)
deriving DecidableEq

/-- The signature store together with whether rewriting signatures.json
succeeds; a failed write is modelled as leaving the store unchanged. -/
structure SigStore where
  file : SigFileState
  writeOk : Bool
deriving DecidableEq

/-- A path of the file system as the source observes it: the path string,
whether os.path.isfile holds, whether opening it for reading resp.
writing succeeds, and its byte content. -/
structure PresetFile where
  name : PyStr
  isFile : Bool
  readOk : Bool
  writeOk : Bool
  content : List Nat
deriving DecidableEq

/-- FXPUtil._load_signatures: only FileNotFoundError is caught; a present
but unparsable file makes json.load raise, and that exception propagates. -/
def load_signatures : SigFileState → Except Unit (Option (List SigRecord))
  | .missing => .ok none
  | .invalid => .error ()
  | .parsed recs => .ok (some recs)

/-- The magic bytes CcnK. -/
def magic : List Nat := [67, 99, 110, 75]

/-- The extension check of FXPUtil._read_header:
file_path.lower().endswith with the pair .fxp, .fxb. -/
def hasPresetExt (p : PyStr) : Bool :=
  trailsWith (pyStr ".fxp") (pyLower p) || trailsWith (pyStr ".fxb") (pyLower p)

/-- FXPUtil._read_header: regular-file and extension checks, then read up
to 20 bytes and require the magic as the leading 4 bytes.  Note: the
source never checks that the file actually holds 20 bytes. -/
def read_header (f : PresetFile) : Option (List Nat) :=
  if f.isFile = false then none
  else if hasPresetExt f.name = false then none
  else if f.readOk = false then none
  else if (f.content.take 20).take 4 ≠ magic then none
  else some (f.content.take 20)

/-- Python truthiness of an optional bytes value: None and empty bytes are falsy. -/
def falsyBytes : Option (List Nat) → Bool
  | none => true
  | some b => b.isEmpty

/-- FXPUtil.ForceGetCode: raw extraction of bytes 16..19, utf-8 decoded;
any failure (not a regular file, unreadable, shorter than 20 bytes,
undecodable bytes) is caught and gives none. -/
def ForceGetCode (f : PresetFile) : Option PyStr :=
  if f.isFile = false then none
  else if f.readOk = false then none
  else if f.content.length < 20 then none
  else utf8Decode ((f.content.drop 16).take 4)

/-- The scan loop shared verbatim by GetCode, GetName and GetCompany: the
first record whose stripped code, utf-8 encoded, occurs in the header
wins; sel picks the field of the winning record, returned stripped. -/
def scanSigs (hdr : List Nat) (sel : SigRecord → PyStr) : List SigRecord → Option PyStr
  | [] => none
  | p :: rest =>
    if occursIn (utf8Encode (pyStrip p.code)) hdr then some (pyStrip (sel p))
    else scanSigs hdr sel rest

/-- Common body of FXPUtil.GetCode, GetName and GetCompany, which are
identical in the source up to the field returned from the matching
record (sel).  The falsiness tests mirror `if not header` and
`if not signatures` of the source. -/
def resolveField (f : PresetFile) (st : SigFileState) (sel : SigRecord → PyStr) :
    Except Unit (Option PyStr) :=
  match read_header f with
  | none => .ok none
  | some hdr =>
    if hdr.isEmpty then .ok none
    else
      match load_signatures st with
      | .error e => .error e
      | .ok none => .ok none
      | .ok (some sigs) =>
        if sigs.isEmpty then .ok none
        else .ok (scanSigs hdr sel sigs)

/-- FXPUtil.GetCode. -/
def GetCode (f : PresetFile) (st : SigFileState) : Except Unit (Option PyStr) :=
  resolveField f st (fun r => r.code)

/-- FXPUtil.GetName. -/
def GetName (f : PresetFile) (st : SigFileState) : Except Unit (Option PyStr) :=
  resolveField f st (fun r => r.name)

/-- FXPUtil.GetCompany. -/
def GetCompany (f : PresetFile) (st : SigFileState) : Except Unit (Option PyStr) :=
  resolveField f st (fun r => r.company)

/-- FXPUtil.GetVendor: an alias of GetCompany. -/
def GetVendor (f : PresetFile) (st : SigFileState) : Except Unit (Option PyStr) :=
  GetCompany f st

/-- FXPUtil.FetchDatabase: returns _load_signatures() directly. -/
def FetchDatabase (st : SigFileState) : Except Unit (Option (List SigRecord)) :=
  load_signatures st

/-- FXPUtil.SetCode: length-4 check on the code (characters, not bytes),
then splice the utf-8 encoding of the code between bytes 0..15 and the
bytes from offset 20 on, and write the file back. -/
def SetCode (f : PresetFile) (newCode : PyStr) : Bool × PresetFile :=
  if newCode.length ≠ 4 then (false, f)
  else if f.isFile = false then (false, f)
  else if f.readOk = false then (false, f)
  else if f.content.length < 20 then (false, f)
  else if f.writeOk = false then (false, f)
  else (true, { f with content := f.content.take 16 ++ utf8Encode newCode ++ f.content.drop 20 })

/-- The table AddToDatabase starts from: `_load_signatures() or []`,
i.e. an empty list when the load gave None or an empty table. -/
def loadedOr : SigFileState → List SigRecord
  | .parsed recs => recs
  | _ => []

/-- FXPUtil.AddToDatabase: validation rejects an empty or non-4-character
code and an empty (not merely blank) name or company; then the record is
appended with all three fields stripped and the table rewritten.  A load
that raises (unparsable file) is caught by the bare except and yields
False. -/
def AddToDatabase (code name company : PyStr) (s : SigStore) : Bool × SigStore :=
  if code = [] ∨ code.length ≠ 4 ∨ name = [] ∨ company = [] then (false, s)
  else
    match s.file with
    | .invalid => (false, s)
    | st =>
      if s.writeOk = false then (false, s)
      else (true, { s with
        file := .parsed (loadedOr st ++ [⟨pyStrip code, pyStrip name, pyStrip company⟩]) })

/-- FXPUtil.RemoveFromDatabase: a missing, unparsable or empty table gives
False; otherwise every record whose stripped code equals the stripped
input is dropped, and False is returned when nothing was dropped. -/
def RemoveFromDatabase (code : PyStr) (s : SigStore) : Bool × SigStore :=
  match s.file with
  | .invalid => (false, s)
  | .missing => (false, s)
  | .parsed data =>
    if data.isEmpty then (false, s)
    else
      let filtered := data.filter (fun e => pyStrip e.code ≠ pyStrip code)
      if filtered.length = data.length then (false, s)
      else if s.writeOk = false then (false, s)
      else (true, { s with file := .parsed filtered })

/-- Python indexing bytes[i] for the in-range indices the Compare loop
visits (0 is never reached since the loop bound is at most the length). -/
def byteAt (l : List Nat) (i : Nat) : Nat := l.getD i 0

/-- The body of the byte loop of FXPUtil.Compare at one index: the tuple
(i, bytes1[i], bytes2[i], bytes1[i] - bytes2[i]) when the bytes differ. -/
def diffEntry (b1 b2 : List Nat) (i : Nat) : Option (Nat × Nat × Nat × Int) :=
  if byteAt b1 i ≠ byteAt b2 i then
    some (i, byteAt b1 i, byteAt b2 i, (byteAt b1 i : Int) - (byteAt b2 i : Int))
  else none

/-- The byte loop of FXPUtil.Compare: for i in range(bytes_to_compare),
append the tuple when the bytes differ (the counter increments once per
append, so it equals the length of this list). -/
def diffList (b1 b2 : List Nat) (m : Nat) : List (Nat × Nat × Nat × Int) :=
  (List.range m).filterMap (diffEntry b1 b2)

/-- Per-file identity block of the Compare result. -/
structure FileInfo where
  code : Option PyStr
  company : Option PyStr
  name : Option PyStr
deriving DecidableEq

/-- The dictionary FXPUtil.Compare returns. -/
structure CompareResult where
  differences : List (Nat × Nat × Nat × Int)
  same_code : Bool
  same_company : Bool
  same_plugin : Bool
  total_different_bytes : Nat
  file1 : FileInfo
  file2 : FileInfo
deriving DecidableEq

/-- FXPUtil.Compare: resolve both identities first (their exceptions
propagate), bail out with the base result when either header is falsy,
set the same-flags, bail out when reading either file raises IOError,
then run the byte loop over min(len1, len2, num_bytes_to_compare)
indices; num_bytes_to_compare is a Python int, so it may be negative and
range then yields no index (Int.toNat). -/
def Compare (f1 f2 : PresetFile) (numBytes : Int) (st : SigFileState) :
    Except Unit CompareResult := do
  let c1 ← GetCode f1 st
  let co1 ← GetCompany f1 st
  let n1 ← GetName f1 st
  let c2 ← GetCode f2 st
  let co2 ← GetCompany f2 st
  let n2 ← GetName f2 st
  let base : CompareResult :=
    ⟨[], false, false, false, 0, ⟨c1, co1, n1⟩, ⟨c2, co2, n2⟩⟩
  if falsyBytes (read_header f1) || falsyBytes (read_header f2) then
    return base
  let flagged : CompareResult :=
    { base with
      same_code := decide (c1 = c2)
      same_company := decide (co1 = co2)
      same_plugin := decide (n1 = n2) }
  if (f1.readOk = false) ∨ (f2.readOk = false) then
    return flagged
  let cnt : Int := min (min (f1.content.length : Int) (f2.content.length : Int)) numBytes
  let diffs := diffList f1.content f2.content cnt.toNat
  return { flagged with differences := diffs, total_different_bytes := diffs.length }

/-! ### Concrete files and stores used as inputs by checks below -/

/-- A 5-byte regular file named x.fxp starting with the magic: bytes 67 99 110 75 0. -/
def c1File : PresetFile := ⟨pyStr "x.fxp", true, true, true, [67, 99, 110, 75, 0]⟩

/-- A well-formed 20-byte preset file named a.fxp. -/
def c2File : PresetFile :=
  ⟨pyStr "a.fxp", true, true, true,
   [67, 99, 110, 75, 1, 2, 3, 4, 5, 6, 7, 8, 9, 10, 11, 12, 65, 66, 67, 68]⟩

/-- A well-formed 20-byte preset file whose identifier field is AAAA. -/
def c3File : PresetFile :=
  ⟨pyStr "w.fxp", true, true, true,
   [67, 99, 110, 75, 0, 0, 0, 0, 0, 0, 0, 0, 0, 0, 0, 0, 65, 65, 65, 65]⟩

/-- The header of c3File. -/
def c3Hdr : List Nat :=
  [67, 99, 110, 75, 0, 0, 0, 0, 0, 0, 0, 0, 0, 0, 0, 0, 65, 65, 65, 65]

/-- A store snapshot with a non-matching record before the matching one. -/
def c3Recs : List SigRecord :=
  [⟨pyStr "ZZZZ", pyStr "Zed", pyStr "ZedCorp"⟩,
   ⟨pyStr "AAAA", pyStr "Alpha", pyStr "AlphaCorp"⟩]

/-- A well-formed 20-byte preset file. -/
def c4File : PresetFile :=
  ⟨pyStr "m.fxp", true, true, true,
   [67, 99, 110, 75, 0, 0, 0, 0, 0, 0, 0, 0, 0, 0, 0, 0, 65, 65, 65, 65]⟩

/-- Four characters, five UTF-8 bytes: U+00E9 (which encodes as 195 169)
followed by o o o. -/
def multiByteCode : PyStr := [233, 111, 111, 111]

/-- A well-formed 20-byte preset file. -/
def c5File : PresetFile :=
  ⟨pyStr "n.fxp", true, true, true,
   [67, 99, 110, 75, 1, 1, 1, 1, 1, 1, 1, 1, 1, 1, 1, 1, 66, 66, 66, 66]⟩

/-- A well-formed 20-byte preset file. -/
def c4wFile : PresetFile :=
  ⟨pyStr "s.fxp", true, true, true,
   [67, 99, 110, 75, 9, 9, 9, 9, 9, 9, 9, 9, 9, 9, 9, 9, 68, 68, 68, 68]⟩

/-- A well-formed 20-byte preset file. -/
def c5wFile : PresetFile :=
  ⟨pyStr "t.fxp", true, true, true,
   [67, 99, 110, 75, 2, 2, 2, 2, 2, 2, 2, 2, 2, 2, 2, 2, 70, 70, 70, 70]⟩

/-- A 20-byte preset file; differs from c7File2 at indices 5, 7 and 16..19. -/
def c7File1 : PresetFile :=
  ⟨pyStr "p1.fxp", true, true, true,
   [67, 99, 110, 75, 1, 2, 3, 4, 5, 6, 0, 0, 0, 0, 0, 0, 65, 65, 65, 65]⟩

/-- A 22-byte preset file; differs from c7File1 at indices 5, 7 and 16..19. -/
def c7File2 : PresetFile :=
  ⟨pyStr "p2.fxp", true, true, true,
   [67, 99, 110, 75, 1, 9, 3, 8, 5, 6, 0, 0, 0, 0, 0, 0, 66, 66, 66, 66, 7, 7]⟩

/-- The header of c7File1. -/
def c7Hdr1 : List Nat :=
  [67, 99, 110, 75, 1, 2, 3, 4, 5, 6, 0, 0, 0, 0, 0, 0, 65, 65, 65, 65]

/-- The header of c7File2 (first 20 bytes). -/
def c7Hdr2 : List Nat :=
  [67, 99, 110, 75, 1, 9, 3, 8, 5, 6, 0, 0, 0, 0, 0, 0, 66, 66, 66, 66]

/-- A regular 20-byte file whose byte 16 is 255, not valid UTF-8. -/
def c8Bad : PresetFile :=
  ⟨pyStr "u.fxp", true, true, true,
   [67, 99, 110, 75, 0, 0, 0, 0, 0, 0, 0, 0, 0, 0, 0, 0, 255, 65, 65, 65]⟩

/-- A regular 20-byte file with neither the magic nor a preset extension;
its bytes 16..19 are ASCII H I J K. -/
def c8Good : PresetFile :=
  ⟨pyStr "raw.bin", true, true, true,
   [0, 0, 0, 0, 0, 0, 0, 0, 0, 0, 0, 0, 0, 0, 0, 0, 72, 73, 74, 75]⟩

/-- A regular 5-byte file. -/
def c8Short : PresetFile := ⟨pyStr "v.fxp", true, true, true, [67, 99, 110, 75, 0]⟩

/-- A table with two records sharing the code ABCD around a QQQQ record. -/
def c9Recs : List SigRecord :=
  [⟨pyStr "ABCD", pyStr "One", pyStr "OneCorp"⟩,
   ⟨pyStr "QQQQ", pyStr "Two", pyStr "TwoCorp"⟩,
   ⟨pyStr "ABCD", pyStr "Three", pyStr "ThreeCorp"⟩]

/-- A well-formed 20-byte preset file whose identifier field is M N O P. -/
def c10File : PresetFile :=
  ⟨pyStr "g.fxp", true, true, true,
   [67, 99, 110, 75, 5, 5, 5, 5, 5, 5, 5, 5, 5, 5, 5, 5, 77, 78, 79, 80]⟩

/-- The header of c10File. -/
def c10Hdr : List Nat :=
  [67, 99, 110, 75, 5, 5, 5, 5, 5, 5, 5, 5, 5, 5, 5, 5, 77, 78, 79, 80]

/-! ### Helper lemmas about the embedding -/

theorem read_header_eq (f : PresetFile) (hdr : List Nat) (h : read_header f = some hdr) :
    f.isFile = true ∧ f.readOk = true ∧ hdr = f.content.take 20 ∧ hdr.take 4 = magic := by
  unfold read_header at h
  split_ifs at h with h1 h2 h3 h4
  simp only [Option.some.injEq] at h
  subst h
  refine ⟨?_, ?_, rfl, ?_⟩
  · simpa using h1
  · simpa using h3
  · simpa using h4

theorem read_header_not_empty (f : PresetFile) (hdr : List Nat)
    (h : read_header f = some hdr) : hdr.isEmpty = false := by
  obtain ⟨-, -, -, hm⟩ := read_header_eq f hdr h
  cases hdr with
  | nil => simp [magic] at hm
  | cons a t => rfl

theorem scanSigs_eq_find (hdr : List Nat) (sel : SigRecord → PyStr) (recs : List SigRecord) :
    scanSigs hdr sel recs =
      (recs.find? (fun r => occursIn (utf8Encode (pyStrip r.code)) hdr)).map
        (fun r => pyStrip (sel r)) := by
  induction recs with
  | nil => rfl
  | cons p rest ih =>
    cases hp : occursIn (utf8Encode (pyStrip p.code)) hdr with
    | true => simp [scanSigs, List.find?, hp]
    | false => simp [scanSigs, List.find?, hp, ih]

theorem resolveField_parsed (f : PresetFile) (recs : List SigRecord) (hdr : List Nat)
    (sel : SigRecord → PyStr) (h : read_header f = some hdr) :
    resolveField f (.parsed recs) sel =
      .ok ((recs.find? (fun r => occursIn (utf8Encode (pyStrip r.code)) hdr)).map
            (fun r => pyStrip (sel r))) := by
  unfold resolveField
  rw [h]
  simp only [read_header_not_empty f hdr h, Bool.false_eq_true, if_false, load_signatures]
  cases recs with
  | nil => rfl
  | cons p rest =>
    simp only [List.isEmpty_cons, Bool.false_eq_true, if_false, scanSigs_eq_find]

theorem resolveField_ok (f : PresetFile) (st : SigFileState) (sel : SigRecord → PyStr)
    (hs : st ≠ .invalid) : ∃ v, resolveField f st sel = .ok v := by
  unfold resolveField
  cases hh : read_header f with
  | none => exact ⟨none, rfl⟩
  | some hdr =>
    by_cases he : hdr.isEmpty = true
    · exact ⟨none, by simp [he]⟩
    · cases st with
      | invalid => exact absurd rfl hs
      | missing => exact ⟨none, by simp [he, load_signatures]⟩
      | parsed recs =>
        by_cases hr : recs.isEmpty = true
        · exact ⟨none, by simp [he, load_signatures, hr]⟩
        · exact ⟨scanSigs hdr sel recs, by simp [he, load_signatures, hr]⟩

theorem occursIn_nil_left (l : List Nat) : occursIn [] l = true := by
  cases l with
  | nil => rfl
  | cons b t => simp [occursIn, leadsWith]

theorem pyStrip_all_space (s : PyStr) (h : ∀ n ∈ s, isPySpace n = true) :
    pyStrip s = [] := by
  unfold pyStrip
  rw [List.dropWhile_eq_nil_iff.mpr (fun x hx => h x hx)]
  rfl

theorem utf8Bytes_ascii (n : Nat) (h : n < 128) : utf8Bytes n = [n] := by
  unfold utf8Bytes
  rw [if_pos h]

theorem utf8Bytes_length_pos (n : Nat) : 1 ≤ (utf8Bytes n).length := by
  unfold utf8Bytes
  split_ifs <;> simp

theorem utf8Bytes_length_one (n : Nat) (h : (utf8Bytes n).length = 1) : n < 128 := by
  by_contra hn
  unfold utf8Bytes at h
  rw [if_neg hn] at h
  split_ifs at h <;> simp at h

theorem utf8Encode_length_ge (s : PyStr) : s.length ≤ (utf8Encode s).length := by
  induction s with
  | nil => simp [utf8Encode]
  | cons a t ih =>
    have h1 := utf8Bytes_length_pos a
    simp only [utf8Encode, List.map_cons, List.flatten_cons, List.length_append,
      List.length_cons] at *
    omega

theorem utf8Encode_ascii (s : PyStr) (h : ∀ n ∈ s, n < 128) : utf8Encode s = s := by
  induction s with
  | nil => rfl
  | cons a t ih =>
    have ha : utf8Bytes a = [a] := utf8Bytes_ascii a (h a (by simp))
    have ht : utf8Encode t = t := ih (fun n hn => h n (by simp [hn]))
    simp only [utf8Encode, List.map_cons, List.flatten_cons] at *
    rw [ha, ht]
    rfl

theorem ascii_of_encode_length (s : PyStr) (h : (utf8Encode s).length = s.length) :
    ∀ n ∈ s, n < 128 := by
  induction s with
  | nil => simp
  | cons a t ih =>
    have h1 := utf8Bytes_length_pos a
    have h2 := utf8Encode_length_ge t
    simp only [utf8Encode, List.map_cons, List.flatten_cons, List.length_append,
      List.length_cons] at h h2 ⊢
    have ha : (utf8Bytes a).length = 1 := by omega
    have ht : ((t.map utf8Bytes).flatten).length = t.length := by omega
    intro n hn
    rcases List.mem_cons.mp hn with rfl | hn
    · exact utf8Bytes_length_one n ha
    · exact ih ht n hn

theorem utf8DecodeOne_ascii (b : Nat) (rest : List Nat) (hb : b < 128) :
    utf8DecodeOne (b :: rest) = some (b, rest) := by
  simp only [utf8DecodeOne]
  rw [if_pos hb]

theorem utf8DecodeLoop_ascii (fuel : Nat) (s : List Nat) (h : ∀ n ∈ s, n < 128)
    (hf : s.length ≤ fuel) : utf8DecodeLoop fuel s = some s := by
  induction fuel generalizing s with
  | zero =>
    cases s with
    | nil => rfl
    | cons a t => simp at hf
  | succ fuel ih =>
    cases s with
    | nil => rfl
    | cons a t =>
      rw [utf8DecodeLoop, utf8DecodeOne_ascii a t (h a (by simp))]
      show (utf8DecodeLoop fuel t).map (fun u => a :: u) = some (a :: t)
      rw [ih t (fun n hn => h n (by simp [hn])) (by simp at hf; omega)]
      rfl

theorem utf8Decode_ascii (s : List Nat) (h : ∀ n ∈ s, n < 128) : utf8Decode s = some s :=
  utf8DecodeLoop_ascii s.length s h le_rfl

theorem SetCode_success (f : PresetFile) (code : PyStr) (h4 : code.length = 4)
    (hf : f.isFile = true) (hr : f.readOk = true) (hw : f.writeOk = true)
    (hl : 20 ≤ f.content.length) :
    SetCode f code =
      (true, { f with content := f.content.take 16 ++ utf8Encode code ++ f.content.drop 20 }) := by
  unfold SetCode
  rw [if_neg (by omega), if_neg (by simp [hf]), if_neg (by simp [hr]),
    if_neg (by omega), if_neg (by simp [hw])]

theorem spliced_take_16 (c e : List Nat) (hc : 20 ≤ c.length) :
    (c.take 16 ++ e ++ c.drop 20).take 16 = c.take 16 := by
  rw [List.append_assoc]
  exact List.take_left' (by simp; omega)

theorem spliced_drop_20 (c e : List Nat) (hc : 20 ≤ c.length) (he : e.length = 4) :
    (c.take 16 ++ e ++ c.drop 20).drop 20 = c.drop 20 := by
  exact List.drop_left' (by simp [he]; omega)

theorem spliced_slice (c e : List Nat) (hc : 20 ≤ c.length) (he : e.length = 4) :
    ((c.take 16 ++ e ++ c.drop 20).drop 16).take 4 = e := by
  rw [List.append_assoc, List.drop_left' (by simp; omega)]
  exact List.take_left' he

theorem spliced_length (c e : List Nat) (hc : 20 ≤ c.length) (he : e.length = 4) :
    (c.take 16 ++ e ++ c.drop 20).length = c.length := by
  simp [he]
  omega

theorem except_bind_ok {α β : Type} (a : α) (k : α → Except Unit β) :
    (Except.ok a >>= k) = k a := rfl

theorem GetCode_ok (f : PresetFile) (st : SigFileState) (hs : st ≠ .invalid) :
    ∃ v, GetCode f st = .ok v := resolveField_ok f st _ hs

theorem GetName_ok (f : PresetFile) (st : SigFileState) (hs : st ≠ .invalid) :
    ∃ v, GetName f st = .ok v := resolveField_ok f st _ hs

theorem GetCompany_ok (f : PresetFile) (st : SigFileState) (hs : st ≠ .invalid) :
    ∃ v, GetCompany f st = .ok v := resolveField_ok f st _ hs

theorem filterMap_diffEntry_map_fst (b1 b2 : List Nat) (l : List Nat) :
    ((l.filterMap (diffEntry b1 b2)).map (fun e => e.1)) =
      l.filter (fun i => decide (byteAt b1 i ≠ byteAt b2 i)) := by
  induction l with
  | nil => rfl
  | cons a t ih =>
    by_cases h : byteAt b1 a = byteAt b2 a
    · simp [diffEntry, List.filterMap_cons, List.filter_cons, h, ih]
    · simp [diffEntry, List.filterMap_cons, List.filter_cons, h, ih]

theorem diffList_map_fst (b1 b2 : List Nat) (m : Nat) :
    ((diffList b1 b2 m).map (fun e => e.1)) =
      (List.range m).filter (fun i => decide (byteAt b1 i ≠ byteAt b2 i)) :=
  filterMap_diffEntry_map_fst b1 b2 (List.range m)

theorem diffList_mem (b1 b2 : List Nat) (m : Nat) (e : Nat × Nat × Nat × Int)
    (he : e ∈ diffList b1 b2 m) :
    e.1 < m ∧ byteAt b1 e.1 ≠ byteAt b2 e.1 ∧ e.2.1 = byteAt b1 e.1 ∧
      e.2.2.1 = byteAt b2 e.1 ∧ e.2.2.2 = (byteAt b1 e.1 : Int) - (byteAt b2 e.1 : Int) := by
  unfold diffList at he
  obtain ⟨i, hi, hfi⟩ := List.mem_filterMap.mp he
  unfold diffEntry at hfi
  split_ifs at hfi with hne
  injection hfi with hfi
  subst hfi
  exact ⟨List.mem_range.mp hi, hne, rfl, rfl, rfl⟩

theorem diffList_pairwise (b1 b2 : List Nat) (m : Nat) :
    (diffList b1 b2 m).Pairwise (fun d e => d.1 < e.1) := by
  have h1 : ((diffList b1 b2 m).map (fun e => e.1)).Pairwise (· < ·) := by
    rw [diffList_map_fst]
    exact (List.pairwise_lt_range m).filter _
  exact List.pairwise_map.mp h1

theorem AddToDatabase_rejects (code name company : PyStr) (s : SigStore)
    (h : code = [] ∨ code.length ≠ 4 ∨ name = [] ∨ company = []) :
    AddToDatabase code name company s = (false, s) := by
  unfold AddToDatabase
  rw [if_pos h]

theorem AddToDatabase_success (code name company : PyStr) (s : SigStore)
    (hc : code ≠ []) (h4 : code.length = 4) (hn : name ≠ []) (hcomp : company ≠ [])
    (hs : s.file ≠ .invalid) (hw : s.writeOk = true) :
    AddToDatabase code name company s =
      (true, { s with
        file := .parsed (loadedOr s.file ++ [⟨pyStrip code, pyStrip name, pyStrip company⟩]) }) := by
  unfold AddToDatabase
  rw [if_neg (by simp [hc, h4, hn, hcomp])]
  cases hf : s.file with
  | invalid => exact absurd hf hs
  | missing => simp [hw, loadedOr]
  | parsed recs => simp [hw, loadedOr]

theorem RemoveFromDatabase_missing (code : PyStr) (s : SigStore) (h : s.file = .missing) :
    RemoveFromDatabase code s = (false, s) := by
  unfold RemoveFromDatabase
  rw [h]

theorem RemoveFromDatabase_no_match (code : PyStr) (s : SigStore) (recs : List SigRecord)
    (h : s.file = .parsed recs) (hnm : ∀ r ∈ recs, pyStrip r.code ≠ pyStrip code) :
    RemoveFromDatabase code s = (false, s) := by
  unfold RemoveFromDatabase
  rw [h]
  cases recs with
  | nil => rfl
  | cons p rest =>
    have hfil : (p :: rest).filter (fun e => !decide (pyStrip e.code = pyStrip code)) = p :: rest :=
      List.filter_eq_self.mpr (fun a ha => by simpa using hnm a ha)
    simp [hfil]

theorem RemoveFromDatabase_success (code : PyStr) (s : SigStore) (recs : List SigRecord)
    (h : s.file = .parsed recs) (hm : ∃ r ∈ recs, pyStrip r.code = pyStrip code)
    (hw : s.writeOk = true) :
    RemoveFromDatabase code s =
      (true, { s with
        file := .parsed (recs.filter (fun e => decide (pyStrip e.code ≠ pyStrip code))) }) := by
  unfold RemoveFromDatabase
  rw [h]
  obtain ⟨r, hr, hrc⟩ := hm
  have hne : recs ≠ [] := by
    intro hnil
    rw [hnil] at hr
    exact absurd hr (List.not_mem_nil r)
  have hlt : (recs.filter (fun e => decide (pyStrip e.code ≠ pyStrip code))).length < recs.length :=
    List.length_filter_lt_length_iff_exists.mpr ⟨r, hr, by simp [hrc]⟩
  have hemp : recs.isEmpty = false := by
    cases recs with
    | nil => exact absurd rfl hne
    | cons a t => rfl
  simp only [hemp, Bool.false_eq_true, if_false, if_neg (Nat.ne_of_lt hlt), hw,
    Bool.true_eq_false]

theorem except_pure {α : Type} (a : α) : (pure a : Except Unit α) = Except.ok a := rfl

theorem ForceGetCode_long (g : PresetFile) (hf : g.isFile = true) (hr : g.readOk = true)
    (hl : 20 ≤ g.content.length) :
    ForceGetCode g = utf8Decode ((g.content.drop 16).take 4) := by
  unfold ForceGetCode
  rw [if_neg (by simp [hf]), if_neg (by simp [hr]), if_neg (by omega)]

theorem Compare_reduces (f1 f2 : PresetFile) (nb : Int) (st : SigFileState)
    (h1 h2 : List Nat)
    (hd1 : read_header f1 = some h1) (hd2 : read_header f2 = some h2)
    (hs : st ≠ .invalid) :
    ∃ i1 i2 : FileInfo,
      Compare f1 f2 nb st = .ok
        { differences := diffList f1.content f2.content
            (min (min (f1.content.length : Int) (f2.content.length : Int)) nb).toNat
          same_code := decide (i1.code = i2.code)
          same_company := decide (i1.company = i2.company)
          same_plugin := decide (i1.name = i2.name)
          total_different_bytes := (diffList f1.content f2.content
            (min (min (f1.content.length : Int) (f2.content.length : Int)) nb).toNat).length
          file1 := i1
          file2 := i2 } := by
  obtain ⟨c1, hc1⟩ := GetCode_ok f1 st hs
  obtain ⟨co1, hco1⟩ := GetCompany_ok f1 st hs
  obtain ⟨n1, hn1⟩ := GetName_ok f1 st hs
  obtain ⟨c2, hc2⟩ := GetCode_ok f2 st hs
  obtain ⟨co2, hco2⟩ := GetCompany_ok f2 st hs
  obtain ⟨n2, hn2⟩ := GetName_ok f2 st hs
  refine ⟨⟨c1, co1, n1⟩, ⟨c2, co2, n2⟩, ?_⟩
  obtain ⟨hf1, hr1, -, -⟩ := read_header_eq f1 h1 hd1
  obtain ⟨hf2, hr2, -, -⟩ := read_header_eq f2 h2 hd2
  have he1 := read_header_not_empty f1 h1 hd1
  have he2 := read_header_not_empty f2 h2 hd2
  simp only [Compare, hc1, hco1, hn1, hc2, hco2, hn2, except_bind_ok, except_pure, hd1, hd2,
    falsyBytes, he1, he2, hr1, hr2, Bool.or_self, Bool.false_eq_true, Bool.true_eq_false,
    or_self, if_false]

/-! ### The claims -/

/-- Claim C1 (code bug): _read_header never checks that the file holds at
least 20 bytes; on the 5-byte regular file x.fxp with content bytes
67 99 110 75 0 (the magic followed by one byte) it returns that 5-byte
header instead of the absent value the specification requires for every
file shorter than 20 bytes. -/
theorem read_header_accepts_short_file :
    read_header c1File = some [67, 99, 110, 75, 0] := by decide

/-- Claim C2 (code bug): _load_signatures catches only FileNotFoundError,
so when signatures.json exists but fails to parse as JSON the json.load
exception propagates out of _load_signatures, FetchDatabase, and out of
GetCode, GetName, GetCompany and Compare whenever the preset header is
valid — instead of the absent result the specification promises. -/
theorem load_signatures_unparsable_raises :
    load_signatures .invalid = .error () ∧
    FetchDatabase .invalid = .error () ∧
    GetCode c2File .invalid = .error () ∧
    GetName c2File .invalid = .error () ∧
    GetCompany c2File .invalid = .error () ∧
    Compare c2File c2File 100 .invalid = .error () :=
  ⟨rfl, rfl, rfl, rfl, rfl, rfl⟩

/-- Claim C3 (confirmed): for every file whose header reads successfully
and every parsed store snapshot, GetCode, GetName and GetCompany scan the
stored records in order and return the corresponding (stripped) field of
the first record whose stripped code, utf-8 encoded, occurs anywhere as a
contiguous byte run within the header — not only at offsets 16..19 — and
return absent when no record matches. -/
theorem resolvers_return_first_substring_match (f : PresetFile) (recs : List SigRecord)
    (hdr : List Nat) (h : read_header f = some hdr) :
    GetCode f (.parsed recs) =
      .ok ((recs.find? (fun r => occursIn (utf8Encode (pyStrip r.code)) hdr)).map
        (fun r => pyStrip r.code)) ∧
    GetName f (.parsed recs) =
      .ok ((recs.find? (fun r => occursIn (utf8Encode (pyStrip r.code)) hdr)).map
        (fun r => pyStrip r.name)) ∧
    GetCompany f (.parsed recs) =
      .ok ((recs.find? (fun r => occursIn (utf8Encode (pyStrip r.code)) hdr)).map
        (fun r => pyStrip r.company)) :=
  ⟨resolveField_parsed f recs hdr _ h, resolveField_parsed f recs hdr _ h,
    resolveField_parsed f recs hdr _ h⟩

/-- Witness for claim C3 at a concrete file and store: the second record
AAAA matches (its code sits at offsets 16..19) and its fields are
returned. -/
theorem resolvers_return_first_substring_match_witness :
    read_header c3File = some c3Hdr ∧
    GetCode c3File (.parsed c3Recs) =
      .ok ((c3Recs.find? (fun r => occursIn (utf8Encode (pyStrip r.code)) c3Hdr)).map
        (fun r => pyStrip r.code)) ∧
    ((c3Recs.find? (fun r => occursIn (utf8Encode (pyStrip r.code)) c3Hdr)).map
        (fun r => pyStrip r.code)) = some (pyStr "AAAA") :=
  ⟨by decide, (resolvers_return_first_substring_match c3File c3Recs c3Hdr (by decide)).1,
    by decide⟩

/-- Claim C10 (confirmed): a 4-character all-whitespace code passes the
validation of AddToDatabase (it is nonempty and has length 4) and is
stored stripped, i.e. as the empty code; and since the empty byte string
occurs in every header, a record with empty stripped code placed first in
the store makes GetCode, GetName and GetCompany match every readable
header and return that record (stripped) fields, whatever the header
bytes are. -/
theorem blank_code_matches_everything :
    (∀ (ws name company : PyStr) (s : SigStore),
      ws.length = 4 → (∀ n ∈ ws, isPySpace n = true) →
      name ≠ [] → company ≠ [] → s.file ≠ .invalid → s.writeOk = true →
      (AddToDatabase ws name company s =
        (true, { s with file := .parsed (loadedOr s.file ++
          [⟨pyStrip ws, pyStrip name, pyStrip company⟩]) }) ∧ pyStrip ws = [])) ∧
    (∀ (r : SigRecord) (rest : List SigRecord) (f : PresetFile) (hdr : List Nat),
      read_header f = some hdr → pyStrip r.code = [] →
      GetCode f (.parsed (r :: rest)) = .ok (some (pyStrip r.code)) ∧
      GetName f (.parsed (r :: rest)) = .ok (some (pyStrip r.name)) ∧
      GetCompany f (.parsed (r :: rest)) = .ok (some (pyStrip r.company))) := by
  constructor
  · intro ws name company s h4 hws hn hcomp hs hw
    have hne : ws ≠ [] := by
      intro h
      rw [h] at h4
      simp at h4
    exact ⟨AddToDatabase_success ws name company s hne h4 hn hcomp hs hw,
      pyStrip_all_space ws hws⟩
  · intro r rest f hdr hh hcode
    have hp : occursIn (utf8Encode (pyStrip r.code)) hdr = true := by
      rw [hcode]
      exact occursIn_nil_left hdr
    have key : ∀ sel : SigRecord → PyStr,
        resolveField f (.parsed (r :: rest)) sel = .ok (some (pyStrip (sel r))) := by
      intro sel
      rw [resolveField_parsed f (r :: rest) hdr sel hh]
      simp [List.find?, hp]
    exact ⟨key _, key _, key _⟩

/-- Witness for claim C10: the code of four spaces (code point 32) is
accepted into an empty store and stored with the empty code; a record
with empty code placed first then resolves any valid header, here one
whose identifier field M N O P matches no real code. -/
theorem blank_code_matches_everything_witness :
    (AddToDatabase [32, 32, 32, 32] (pyStr "Ghost") (pyStr "GhostCorp") ⟨.missing, true⟩ =
      (true, { file := .parsed [⟨[], pyStr "Ghost", pyStr "GhostCorp"⟩], writeOk := true }) ∧
      pyStrip [32, 32, 32, 32] = []) ∧
    GetCode c10File (.parsed (⟨[32, 32, 32, 32].dropWhile isPySpace, pyStr "Ghost",
        pyStr "GhostCorp"⟩ :: [⟨pyStr "AAAA", pyStr "Alpha", pyStr "AlphaCorp"⟩])) =
      .ok (some []) := by
  constructor
  · have h := (blank_code_matches_everything.1 [32, 32, 32, 32] (pyStr "Ghost")
      (pyStr "GhostCorp") ⟨.missing, true⟩ (by decide) (by decide) (by decide) (by decide)
      (by decide) rfl)
    exact ⟨h.1.trans (by decide), h.2⟩
  · have h := (blank_code_matches_everything.2
      ⟨[32, 32, 32, 32].dropWhile isPySpace, pyStr "Ghost", pyStr "GhostCorp"⟩
      [⟨pyStr "AAAA", pyStr "Alpha", pyStr "AlphaCorp"⟩] c10File c10Hdr (by decide)
      (by decide)).1
    rw [h]
    simp only [Except.ok.injEq, Option.some.injEq]
    decide

/-- Counterexample to claim C4 as stated: the code U+00E9 o o o has 4
characters, so SetCode accepts it, but its UTF-8 encoding has 5 bytes;
splicing it into the 20-byte file m.fxp succeeds yet grows the file to
21 bytes, so the change is not confined to offsets 16..19. -/
theorem setcode_multibyte_changes_length :
    (SetCode c4File multiByteCode).1 = true ∧
    (SetCode c4File multiByteCode).2.content.length ≠ c4File.content.length := by decide

/-- Claim C4 (amended): for every existing readable and writable file of
at least 20 bytes and every 4-character newCode whose UTF-8 encoding is
exactly 4 bytes, SetCode succeeds and rewrites only bytes 16..19: length,
the leading 16 bytes (magic and opaque region) and the bytes from offset
20 on are unchanged, bytes 16..19 become the encoded code, and the other
observable attributes of the path are untouched. -/
theorem setcode_frame_ascii (f : PresetFile) (code : PyStr)
    (h4 : code.length = 4) (he : (utf8Encode code).length = 4)
    (hf : f.isFile = true) (hr : f.readOk = true) (hw : f.writeOk = true)
    (hl : 20 ≤ f.content.length) :
    (SetCode f code).1 = true ∧
    (SetCode f code).2.content.length = f.content.length ∧
    (SetCode f code).2.content.take 16 = f.content.take 16 ∧
    (SetCode f code).2.content.drop 20 = f.content.drop 20 ∧
    ((SetCode f code).2.content.drop 16).take 4 = utf8Encode code ∧
    (SetCode f code).2.name = f.name ∧ (SetCode f code).2.isFile = f.isFile := by
  rw [SetCode_success f code h4 hf hr hw hl]
  exact ⟨rfl, spliced_length f.content (utf8Encode code) hl he,
    spliced_take_16 f.content (utf8Encode code) hl,
    spliced_drop_20 f.content (utf8Encode code) hl he,
    spliced_slice f.content (utf8Encode code) hl he, rfl, rfl⟩

/-- Witness for claim C4 at the 20-byte file s.fxp and the ASCII code WXYZ. -/
theorem setcode_frame_ascii_witness :
    (SetCode c4wFile (pyStr "WXYZ")).1 = true ∧
    (SetCode c4wFile (pyStr "WXYZ")).2.content.length = c4wFile.content.length ∧
    (SetCode c4wFile (pyStr "WXYZ")).2.content.take 16 = c4wFile.content.take 16 ∧
    (SetCode c4wFile (pyStr "WXYZ")).2.content.drop 20 = c4wFile.content.drop 20 ∧
    ((SetCode c4wFile (pyStr "WXYZ")).2.content.drop 16).take 4 = utf8Encode (pyStr "WXYZ") ∧
    (SetCode c4wFile (pyStr "WXYZ")).2.name = c4wFile.name ∧
    (SetCode c4wFile (pyStr "WXYZ")).2.isFile = c4wFile.isFile :=
  setcode_frame_ascii c4wFile (pyStr "WXYZ") (by decide) (by decide) (by decide) (by decide)
    (by decide) (by decide)

/-- Counterexample to claim C5 as stated: after stamping the 4-character
code U+00E9 o o o (5 UTF-8 bytes) onto the 20-byte file n.fxp, SetCode
reports success but ForceGetCode reads back only bytes 16..19, which
decode to the 3-character string U+00E9 o o, not the code that was set. -/
theorem setcode_then_forcegetcode_mismatch :
    (SetCode c5File multiByteCode).1 = true ∧
    ForceGetCode (SetCode c5File multiByteCode).2 ≠ some multiByteCode := by decide

/-- Claim C5 (amended): for every existing readable and writable file of
at least 20 bytes and every 4-character newCode whose UTF-8 encoding is
exactly 4 bytes, SetCode succeeds and an immediately following
ForceGetCode on the patched file returns exactly newCode. -/
theorem setcode_then_forcegetcode_roundtrip (f : PresetFile) (code : PyStr)
    (h4 : code.length = 4) (he : (utf8Encode code).length = 4)
    (hf : f.isFile = true) (hr : f.readOk = true) (hw : f.writeOk = true)
    (hl : 20 ≤ f.content.length) :
    (SetCode f code).1 = true ∧ ForceGetCode (SetCode f code).2 = some code := by
  have hascii : ∀ n ∈ code, n < 128 := ascii_of_encode_length code (by rw [he, h4])
  rw [SetCode_success f code h4 hf hr hw hl]
  refine ⟨rfl, ?_⟩
  have hlen : 20 ≤ (f.content.take 16 ++ utf8Encode code ++ f.content.drop 20).length :=
    hl.trans_eq (spliced_length f.content (utf8Encode code) hl he).symm
  have hlong := ForceGetCode_long
    { f with content := f.content.take 16 ++ utf8Encode code ++ f.content.drop 20 } hf hr hlen
  rw [hlong]
  show utf8Decode
      (((f.content.take 16 ++ utf8Encode code ++ f.content.drop 20).drop 16).take 4) = some code
  rw [spliced_slice f.content (utf8Encode code) hl he, utf8Encode_ascii code hascii,
    utf8Decode_ascii code hascii]

/-- Witness for claim C5 at the 20-byte file t.fxp and the ASCII code PQRS. -/
theorem setcode_then_forcegetcode_roundtrip_witness :
    (SetCode c5wFile (pyStr "PQRS")).1 = true ∧
    ForceGetCode (SetCode c5wFile (pyStr "PQRS")).2 = some (pyStr "PQRS") :=
  setcode_then_forcegetcode_roundtrip c5wFile (pyStr "PQRS") (by decide) (by decide)
    (by decide) (by decide) (by decide) (by decide)

/-- Counterexample to claim C6 as stated: AddToDatabase tests name and
company for emptiness before stripping, so a one-space name — empty after
trimming — is accepted rather than rejected, and the stored record has an
empty stripped name, violating the stated data-model invariant. -/
theorem add_accepts_blank_name :
    (AddToDatabase (pyStr "ABCD") [32] (pyStr "Co") ⟨.missing, true⟩).1 = true ∧
    pyStrip [32] = [] := by decide

/-- Claim C6 (amended): AddToDatabase fails exactly on its own validation,
that is when code is the empty string or not exactly 4 characters, or
when name or company is the empty string (not merely blank); whenever the
fields pass that validation and the store can be loaded and written, the
record is appended with all three fields stripped — so a whitespace-only
name or company is accepted and persisted as empty after trimming. -/
theorem add_validation_semantics :
    (∀ (code name company : PyStr) (s : SigStore),
      (code = [] ∨ code.length ≠ 4 ∨ name = [] ∨ company = []) →
      AddToDatabase code name company s = (false, s)) ∧
    (∀ (code name company : PyStr) (s : SigStore),
      code ≠ [] → code.length = 4 → name ≠ [] → company ≠ [] →
      s.file ≠ .invalid → s.writeOk = true →
      AddToDatabase code name company s =
        (true, { s with file := .parsed (loadedOr s.file ++
          [⟨pyStrip code, pyStrip name, pyStrip company⟩]) })) :=
  ⟨AddToDatabase_rejects, fun code name company s hc h4 hn hcomp hs hw =>
    AddToDatabase_success code name company s hc h4 hn hcomp hs hw⟩

/-- Witness for claim C6: a 3-character code is rejected and the store is
untouched; a valid record is appended to an empty store. -/
theorem add_validation_semantics_witness :
    AddToDatabase (pyStr "ABC") (pyStr "N") (pyStr "C") ⟨.missing, true⟩ =
      (false, ⟨.missing, true⟩) ∧
    AddToDatabase (pyStr "ABCD") (pyStr "N") (pyStr "C") ⟨.missing, true⟩ =
      (true, ⟨.parsed [⟨pyStr "ABCD", pyStr "N", pyStr "C"⟩], true⟩) := by
  constructor
  · exact add_validation_semantics.1 (pyStr "ABC") (pyStr "N") (pyStr "C") ⟨.missing, true⟩
      (by decide)
  · have h := add_validation_semantics.2 (pyStr "ABCD") (pyStr "N") (pyStr "C")
      ⟨.missing, true⟩ (by decide) (by decide) (by decide) (by decide) (by decide) rfl
    exact h.trans (by decide)

/-- Claim C9 (confirmed): RemoveFromDatabase fails and leaves the store
unchanged when no table exists or when no record has a stripped code
equal to the stripped input; and when at least one record matches it
removes every matching record — not only the first — rewriting the file
with the remaining records in their original order (the filter keeps
order). -/
theorem remove_semantics :
    (∀ (code : PyStr) (s : SigStore), s.file = .missing →
      RemoveFromDatabase code s = (false, s)) ∧
    (∀ (code : PyStr) (s : SigStore) (recs : List SigRecord), s.file = .parsed recs →
      (∀ r ∈ recs, pyStrip r.code ≠ pyStrip code) →
      RemoveFromDatabase code s = (false, s)) ∧
    (∀ (code : PyStr) (s : SigStore) (recs : List SigRecord), s.file = .parsed recs →
      (∃ r ∈ recs, pyStrip r.code = pyStrip code) → s.writeOk = true →
      RemoveFromDatabase code s =
        (true, { s with
          file := .parsed (recs.filter (fun e => decide (pyStrip e.code ≠ pyStrip code))) })) :=
  ⟨fun code s h => RemoveFromDatabase_missing code s h,
   fun code s recs h hnm => RemoveFromDatabase_no_match code s recs h hnm,
   fun code s recs h hm hw => RemoveFromDatabase_success code s recs h hm hw⟩

/-- Witness for claim C9: removing ZZZZ from a three-record table fails
and leaves it unchanged; removing ABCD removes both ABCD records and
keeps the QQQQ record. -/
theorem remove_semantics_witness :
    RemoveFromDatabase (pyStr "ZZZZ") ⟨.parsed c9Recs, true⟩ =
      (false, ⟨.parsed c9Recs, true⟩) ∧
    RemoveFromDatabase (pyStr "ABCD") ⟨.parsed c9Recs, true⟩ =
      (true, ⟨.parsed [⟨pyStr "QQQQ", pyStr "Two", pyStr "TwoCorp"⟩], true⟩) := by
  constructor
  · exact remove_semantics.2.1 (pyStr "ZZZZ") ⟨.parsed c9Recs, true⟩ c9Recs rfl (by decide)
  · have h := remove_semantics.2.2 (pyStr "ABCD") ⟨.parsed c9Recs, true⟩ c9Recs rfl
      ⟨⟨pyStr "ABCD", pyStr "One", pyStr "OneCorp"⟩, by decide, by decide⟩ rfl
    exact h.trans (by decide)

/-- Counterexample to claim C8 as stated: the regular, readable 20-byte
file u.fxp carries the byte 255 at offset 16; bytes 16..19 do not decode
as UTF-8 text, so ForceGetCode returns absent even though the file exists
and holds at least 20 bytes. -/
theorem forcegetcode_undecodable_absent :
    c8Bad.isFile = true ∧ 20 ≤ c8Bad.content.length ∧ ForceGetCode c8Bad = none := by decide

/-- Claim C8 (amended): on every existing readable file of at least 20
bytes, ForceGetCode returns the UTF-8 decoding of bytes 16..19 — absent
when they do not decode — and in particular returns those 4 bytes as a
4-character string whenever they are ASCII; it consults neither the magic
bytes, nor the extension, nor the signature store (none of them appear in
the hypotheses or the result).  For a path that is not a regular file or
a file shorter than 20 bytes it returns absent. -/
theorem forcegetcode_raw_semantics :
    (∀ f : PresetFile, f.isFile = true → f.readOk = true → 20 ≤ f.content.length →
      (ForceGetCode f = utf8Decode ((f.content.drop 16).take 4) ∧
       ((∀ n ∈ (f.content.drop 16).take 4, n < 128) →
         ForceGetCode f = some ((f.content.drop 16).take 4)))) ∧
    (∀ f : PresetFile, f.isFile = false ∨ f.content.length < 20 → ForceGetCode f = none) := by
  constructor
  · intro f hf hr hl
    refine ⟨ForceGetCode_long f hf hr hl, fun hascii => ?_⟩
    rw [ForceGetCode_long f hf hr hl, utf8Decode_ascii _ hascii]
  · intro f h
    unfold ForceGetCode
    rcases h with h | h
    · rw [if_pos h]
    · by_cases hif : f.isFile = false
      · rw [if_pos hif]
      · rw [if_neg hif]
        by_cases hro : f.readOk = false
        · rw [if_pos hro]
        · rw [if_neg hro, if_pos h]

/-- Witness for claim C8: the file raw.bin has no preset extension and no
magic, yet its ASCII bytes 16..19 (H I J K) are returned; the 5-byte file
v.fxp yields absent. -/
theorem forcegetcode_raw_semantics_witness :
    ForceGetCode c8Good = some ((c8Good.content.drop 16).take 4) ∧
    ForceGetCode c8Short = none :=
  ⟨(forcegetcode_raw_semantics.1 c8Good (by decide) (by decide) (by decide)).2 (by decide),
   forcegetcode_raw_semantics.2 c8Short (Or.inr (by decide))⟩

/-- Claim C7 (confirmed): for two readable files with valid headers and a
loadable store, Compare returns a result whose difference list covers
exactly the indices below n = min(len1, len2, byteCount) at which the
bytes differ, in increasing index order; each entry carries the two bytes
and their signed integer difference, totalDifferentBytes equals the
length of the list, and every recorded index lies below n, so no byte at
or beyond n is compared. -/
theorem compare_diff_semantics (f1 f2 : PresetFile) (nb : Int) (st : SigFileState)
    (h1 h2 : List Nat)
    (hd1 : read_header f1 = some h1) (hd2 : read_header f2 = some h2)
    (hs : st ≠ .invalid) :
    ∃ res, Compare f1 f2 nb st = .ok res ∧
      res.total_different_bytes = res.differences.length ∧
      (res.differences.map (fun e => e.1)) =
        (List.range ((min (min (f1.content.length : Int) (f2.content.length : Int))
          nb).toNat)).filter
          (fun i => decide (byteAt f1.content i ≠ byteAt f2.content i)) ∧
      (∀ e ∈ res.differences,
        e.1 < (min (min (f1.content.length : Int) (f2.content.length : Int)) nb).toNat ∧
        byteAt f1.content e.1 ≠ byteAt f2.content e.1 ∧
        e.2.1 = byteAt f1.content e.1 ∧ e.2.2.1 = byteAt f2.content e.1 ∧
        e.2.2.2 = (byteAt f1.content e.1 : Int) - (byteAt f2.content e.1 : Int)) ∧
      res.differences.Pairwise (fun d e => d.1 < e.1) := by
  obtain ⟨i1, i2, hres⟩ := Compare_reduces f1 f2 nb st h1 h2 hd1 hd2 hs
  exact ⟨_, hres, rfl, diffList_map_fst f1.content f2.content _,
    fun e he => diffList_mem f1.content f2.content _ e he,
    diffList_pairwise f1.content f2.content _⟩

/-- Witness for claim C7: the files p1.fxp (20 bytes) and p2.fxp
(22 bytes) compared over 10 bytes; they differ at indices 5 and 7 among
the first 10 = min(20, 22, 10) bytes. -/
theorem compare_diff_semantics_witness :
    (∃ res, Compare c7File1 c7File2 10 .missing = .ok res ∧
      res.total_different_bytes = res.differences.length ∧
      (res.differences.map (fun e => e.1)) =
        (List.range ((min (min (c7File1.content.length : Int) (c7File2.content.length : Int))
          10).toNat)).filter
          (fun i => decide (byteAt c7File1.content i ≠ byteAt c7File2.content i)) ∧
      (∀ e ∈ res.differences,
        e.1 < (min (min (c7File1.content.length : Int) (c7File2.content.length : Int)) 10).toNat ∧
        byteAt c7File1.content e.1 ≠ byteAt c7File2.content e.1 ∧
        e.2.1 = byteAt c7File1.content e.1 ∧ e.2.2.1 = byteAt c7File2.content e.1 ∧
        e.2.2.2 = (byteAt c7File1.content e.1 : Int) - (byteAt c7File2.content e.1 : Int)) ∧
      res.differences.Pairwise (fun d e => d.1 < e.1)) ∧
    diffList c7File1.content c7File2.content
        ((min (min (c7File1.content.length : Int) (c7File2.content.length : Int)) 10).toNat) =
      [(5, 2, 9, -7), (7, 4, 8, -4)] :=
  ⟨compare_diff_semantics c7File1 c7File2 10 .missing c7Hdr1 c7Hdr2 (by decide) (by decide)
    (by decide), by decide⟩
